import Mathlib

/-!
# Verification of `src/util/submit-addon.js`

Shallow embedding of the addon submission client (`Client`, `signAddon` and
helpers).  Network responses are modelled as JSON values; the asynchronous
polling primitive `waitRetry` is modelled as a deterministic event-loop
simulation over a finite list of poll "ticks" (each tick records how long the
HTTP request stays in flight and what the success predicate does with the
parsed response).
-/

/-- JSON values, as parsed from HTTP response bodies and as built for request
bodies.  Objects are ordered association lists, mirroring the insertion order
of JS object literals. -/
inductive JsonVal
  | null
  | bool (b : Bool)
  | num (n : Int)
  | str (s : String)
  | arr (xs : List JsonVal)
  | obj (fields : List (String × JsonVal))

/-- Property access `o[k]`: `none` models JS `undefined`. -/
def JsonVal.get : JsonVal → String → Option JsonVal
  | .obj fs, k => (fs.find? (fun p => p.1 == k)).map (fun p => p.2)
  | _, _ => none

/-- JS truthiness of a value. -/
def JsonVal.truthy : JsonVal → Bool
  | .null => false
  | .bool b => b
  | .num n => n != 0
  | .str s => s != ""
  | .arr _ => true
  | .obj _ => true

/-- JS truthiness of a possibly-`undefined` value. -/
def truthyOpt : Option JsonVal → Bool
  | none => false
  | some v => v.truthy

/-- JS string interpolation of a value (template literals). -/
def JsonVal.jsString : JsonVal → String
  | .null => "null"
  | .bool true => "true"
  | .bool false => "false"
  | .num n => toString n
  | .str s => s
  | .obj _ => "[object Object]"
  | .arr xs => String.intercalate "," (xs.attach.map (fun x => x.1.jsString))
decreasing_by
  simp_wf
  have := List.sizeOf_lt_of_mem x.2
  omega

/-- JS string interpolation of a possibly-`undefined` value. -/
def jsStringOpt : Option JsonVal → String
  | none => "undefined"
  | some v => v.jsString

/-! ## The polling primitive `waitRetry` (lines 134-174)

`waitRetry` registers an abort timer for `abortInterval` ms, then immediately
calls `pollStatus`.  Each `pollStatus` awaits one HTTP GET; on a thrown error
it clears the abort timer and rejects; on a non-null predicate result it
clears the abort timer and resolves; on null it schedules the next
`pollStatus` after `checkInterval` ms.  The abort timer, when it fires, clears
the currently stored check timer and rejects with `` `${context}: timeout.` ``.

We simulate the single-threaded event loop on a virtual clock.  A run is
driven by a finite list of ticks; tick `k` describes poll `k`: `dur` is how
long its HTTP request is in flight, `res` is what happens when the response
arrives (predicate returns null, returns a value, or the predicate / HTTP
layer throws).  Event ordering convention: a fetch completion at the same
instant as a timer is processed before the timer, and when the abort timer
and a check timer share an expiry the abort timer (registered first) wins. -/

/-- What a single poll tick does once its HTTP response arrives. -/
inductive TickRes
  | isNull
  | success (v : String)
  | err (e : String)
deriving DecidableEq

/-- One poll: time the request is in flight, and the predicate outcome. -/
structure Tick where
  dur : Nat
  res : TickRes
deriving DecidableEq

/-- How the promise returned by `waitRetry` settles. -/
inductive Settle
  | resolved (v : String)
  | timeoutRej (msg : String)
  | errRej (e : String)
deriving DecidableEq

/-- Observable outcome of a simulated `waitRetry` run: the virtual times at
which HTTP poll requests were issued, the first settlement of the promise
(with its time), and the time the abort timer fired, if it ever did. -/
structure RunResult where
  pollTimes : List Nat
  outcome : Option (Settle × Nat)
  abortFired : Option Nat
deriving DecidableEq

/-- One step per poll.  Arguments: remaining ticks; current virtual time `t`
(a poll is issued now); whether the abort timer is still pending (neither
fired nor cleared); the first settlement so far; when the abort timer fired.
Mirrors the body of `pollStatus` plus the abort timer callback. -/
def waitRetryLoop (ci A : Nat) (ctx : String) :
    List Tick → Nat → Bool → Option (Settle × Nat) → Option Nat → RunResult
  | [], _, _, settled, aF => ⟨[], settled, aF⟩
  | tk :: rest, t, alive, settled, aF =>
    let tEnd := t + tk.dur
    if alive ∧ A < tEnd then
      -- The abort timer fires at time A while this poll's request is in
      -- flight: `clearTimeout(checkTimeout)` clears only the stale timer that
      -- already fired to start this poll, and the promise rejects with the
      -- timeout error.  When the in-flight request then completes:
      match tk.res with
      | .isNull =>
        -- `successFunc` returned null, so `pollStatus` schedules ANOTHER
        -- poll `ci` ms later; nothing cancels it any more.
        let r := waitRetryLoop ci A ctx rest (tEnd + ci) false
                   (some (.timeoutRej (ctx ++ ": timeout."), A)) (some A)
        ⟨t :: r.pollTimes, r.outcome, r.abortFired⟩
      | _ =>
        -- resolve/reject are no-ops on the settled promise; no rescheduling.
        ⟨[t], some (.timeoutRej (ctx ++ ": timeout."), A), some A⟩
    else
      match tk.res with
      | .success v =>
        -- `clearTimeout(abortTimeout); resolve(success)`.
        ⟨[t], settled.orElse (fun _ => some (.resolved v, tEnd)), aF⟩
      | .err e =>
        -- `clearTimeout(abortTimeout); reject(err)`.
        ⟨[t], settled.orElse (fun _ => some (.errRej e, tEnd)), aF⟩
      | .isNull =>
        if alive ∧ A ≤ tEnd + ci then
          -- The abort timer fires while the next poll is merely scheduled:
          -- `clearTimeout(checkTimeout)` cancels it; reject with timeout.
          ⟨[t], some (.timeoutRej (ctx ++ ": timeout."), A), some A⟩
        else
          let r := waitRetryLoop ci A ctx rest (tEnd + ci) alive settled aF
          ⟨t :: r.pollTimes, r.outcome, r.abortFired⟩

/-- A full `waitRetry` run: the abort timer is registered for time `A`
(`abortInterval`), and the first poll is issued synchronously at time 0
(`pollStatus()` is called with no initial delay). -/
def waitRetryRun (ticks : List Tick) (ci A : Nat) (ctx : String) : RunResult :=
  waitRetryLoop ci A ctx ticks 0 true none none

/-- Sum of `dur + checkInterval` over a run of null ticks: the time consumed
by polls that return "still in progress". -/
def pollBudget (ci : Nat) : List Tick → Nat
  | [] => 0
  | tk :: rest => tk.dur + ci + pollBudget ci rest

/-- The expected times at which polls are issued, starting at `t`. -/
def pollScheduleFrom (ci : Nat) : List Tick → Nat → List Nat
  | [], _ => []
  | tk :: rest, t => t :: pollScheduleFrom ci rest (t + tk.dur + ci)

/-- Settlement produced by a terminal (non-null) tick completing at time `T`
with the abort timer still pending. -/
def terminalSettle : TickRes → Nat → Option (Settle × Nat)
  | .success v, T => some (.resolved v, T)
  | .err e, T => some (.errRej e, T)
  | .isNull, _ => none

/-! ## The HTTP JSON layer `fetchJson` (lines 242-263)

A fetch result is modelled by its status, status text, `ok` flag and parsed
JSON body; the URL, method and request body do not influence the
classification logic and are carried only to mirror the signature. -/

/-- The relevant observable state of a `node-fetch` response. -/
structure FetchResponse where
  status : Nat
  statusText : String
  ok : Bool
  body : JsonVal

/-- `response.statusText || response.status`: the status text, falling back
to the numeric status code when the status text is the empty string. -/
def statusTextOrCode (r : FetchResponse) : String :=
  if r.statusText = "" then toString r.status else r.statusText

/-- `Client.fetchJson`: throws when `status < 200 || status >= 500`, else
parses the body, then throws when `!response.ok`; otherwise returns the
parsed JSON data.  The error message is
`` `${errorMsg}: ${response.statusText || response.status}.` ``. -/
def fetchJson (_url _method : String) (_body : Option String)
    (r : FetchResponse) (errorMsg : String) : Except String JsonVal :=
  if r.status < 200 ∨ r.status ≥ 500 then
    Except.error (errorMsg ++ ": " ++ statusTextOrCode r ++ ".")
  else if r.ok = false then
    Except.error (errorMsg ++ ": " ++ statusTextOrCode r ++ ".")
  else
    Except.ok r.body

/-! ## The validation polling predicate (lines 176-200) -/

/-- The `successFunc` closure passed to `waitRetry` by `waitForValidation`:
returns null (`Except.ok none`) while `processed` is falsy, returns the
response's `uuid` field when `processed` and `valid` are truthy, and throws
an error embedding the response's `url` field when `processed` is truthy but
`valid` is falsy. -/
def validationSuccessFunc (d : JsonVal) : Except String (Option JsonVal) :=
  if truthyOpt (d.get "processed") = false then
    Except.ok none
  else if truthyOpt (d.get "valid") = true then
    Except.ok (d.get "uuid")
  else
    Except.error ("Validation failed, open the following URL for more information: "
      ++ jsStringOpt (d.get "url"))

/-! ## JS object spread and the submit body merge (lines 202-222) -/

/-- Assigning key `k` in an object literal being built: an existing key keeps
its position and is overwritten, a new key is appended. -/
def objSet (fields : List (String × JsonVal)) (k : String) (v : JsonVal) :
    List (String × JsonVal) :=
  if fields.any (fun p => p.1 == k) then
    fields.map (fun p => if p.1 == k then (k, v) else p)
  else
    fields ++ [(k, v)]

/-- `{...dst, ...src}`: spread `src`'s fields over `dst` in order. -/
def objSpread (dst src : List (String × JsonVal)) : List (String × JsonVal) :=
  src.foldl (fun acc p => objSet acc p.1 p.2) dst

/-- Own enumerable fields used by a spread; non-objects contribute none. -/
def objFields : JsonVal → List (String × JsonVal)
  | .obj fs => fs
  | _ => []

/-- The JSON body built by both `doNewAddonSubmit` (POST) and
`doNewAddonOrVersionSubmit` (PUT):
`{...metaDataJson, version: { upload: uuid, ...metaDataJson.version }}`. -/
def mergedSubmitBody (uuid : String) (metaDataJson : JsonVal) : JsonVal :=
  let version := JsonVal.obj (objSpread [("upload", JsonVal.str uuid)]
    (objFields ((metaDataJson.get "version").getD JsonVal.null)))
  JsonVal.obj (objSet (objSpread [] (objFields metaDataJson)) "version" version)

/-! ## The two workflow paths (lines 311-358)

Each path is modelled as the ordered list of externally visible steps a
successful run performs, with awaited network responses supplied as oracle
arguments.  A run whose JS destructuring would throw yields `none` (the
workflow aborts with a thrown error and performs no approval polling). -/

/-- Externally visible actions of a workflow run, in program order.  URL
paths are relative to the client's `addons/` API base. -/
inductive Step
  | uploadSubmit (xpiPath channel : String)
  | postJson (urlPath : String) (body : JsonVal)
  | putJson (urlPath : String) (body : JsonVal)
  | getJson (urlPath : String)
  | saveId (savedIdPath : String) (id : Option JsonVal)
  | approvalPoll (addonId versionId : Option JsonVal)
  | download (fileUrl : String) (addonId : Option JsonVal)

/-- JS object destructuring `const { k: x } = v`: throws (`none`) when `v`
is `undefined` or `null`, otherwise yields the property (possibly
`undefined`). -/
def jsDestructure (v : Option JsonVal) (k : String) : Option (Option JsonVal) :=
  match v with
  | none => none
  | some JsonVal.null => none
  | some w => some (w.get k)

/-- The response field holding the new version on the create path:
`channel === 'listed' ? 'current_version' : 'latest_unlisted_version'`. -/
def versionObjectKey (channel : String) : String :=
  if channel = "listed" then "current_version" else "latest_unlisted_version"

/-- `Client.postNewAddon` (create path): upload and validate (yielding
`uploadUuid`), POST the merged metadata to `addon/`, destructure
`{ guid: addonId, [versionObject]: { id: newVersionId } }` from the response,
persist the generated id to `savedIdPath`, poll for approval, and download
the signed file. -/
def postNewAddon (xpiPath channel savedIdPath : String) (metaDataJson : JsonVal)
    (uploadUuid : String) (createResp : JsonVal) (approvedFileUrl : String) :
    Option (List Step) :=
  match jsDestructure (createResp.get (versionObjectKey channel)) "id" with
  | none => none
  | some newVersionId =>
    some [Step.uploadSubmit xpiPath channel,
          Step.postJson "addon/" (mergedSubmitBody uploadUuid metaDataJson),
          Step.saveId savedIdPath (createResp.get "guid"),
          Step.approvalPoll (createResp.get "guid") newVersionId,
          Step.download approvedFileUrl (createResp.get "guid")]

/-- `Client.putVersion` (update path): upload and validate (yielding
`uploadUuid`), PUT the merged metadata to the existing record's URL, GET the
record's version listing with `?filter=all_with_unlisted`, destructure
`{ results: [{ id: newVersionId }] }` from it, poll for approval, and
download the signed file. -/
def putVersion (xpiPath channel addonId : String) (metaDataJson : JsonVal)
    (uploadUuid : String) (versionsResp : JsonVal) (approvedFileUrl : String) :
    Option (List Step) :=
  match versionsResp.get "results" with
  | some (JsonVal.arr (first :: _)) =>
    match jsDestructure (some first) "id" with
    | none => none
    | some newVersionId =>
      some [Step.uploadSubmit xpiPath channel,
            Step.putJson ("addon/" ++ addonId ++ "/") (mergedSubmitBody uploadUuid metaDataJson),
            Step.getJson ("addon/" ++ addonId ++ "/versions/?filter=all_with_unlisted"),
            Step.approvalPoll (some (JsonVal.str addonId)) newVersionId,
            Step.download approvedFileUrl (some (JsonVal.str addonId))]
  | _ => none

/-! ## Downloading the signed file (lines 285-302) -/

/-- Final output of the workflow, as in the source's `SignResult` type. -/
structure SignResult where
  id : String
  downloadedFiles : List String
deriving DecidableEq

/-- Oracle for the download fetch: response flags, status, and whether the
streaming to disk fails (with the failure's message). -/
structure DownloadOutcome where
  ok : Bool
  hasBody : Bool
  status : Nat
  streamError : Option String
deriving DecidableEq

/-- Observable effects of one `downloadSignedFile` call. -/
structure DownloadRun where
  dest : String
  logged : Option String
  result : Except String SignResult

/-- `pathname.split('/')` on the underlying characters: split at every
slash, keeping empty segments, as `String.prototype.split` does. -/
def splitSlash : List Char → List (List Char)
  | [] => [[]]
  | c :: cs =>
    if c = '/' then [] :: splitSlash cs
    else
      match splitSlash cs with
      | [] => [[c]]
      | g :: gs => (c :: g) :: gs

/-- `fileUrl.pathname.split('/').pop()`: the last path segment. -/
def lastUrlSegment (pathname : String) : String :=
  String.mk (((splitSlash pathname.data).getLast?).getD [])

/-- `Client.downloadSignedFile`: derive the filename from the URL, write to
`{downloadDir}/{filename}`; a not-ok response, a missing body, or a streaming
failure is logged in full and re-raised as
`` `Downloading ${filename} failed` ``; success returns
`{ id: addonId, downloadedFiles: [filename] }`. -/
def downloadSignedFile (downloadDir fileUrlPathname addonId : String)
    (o : DownloadOutcome) : DownloadRun :=
  let filename := lastUrlSegment fileUrlPathname
  let dest := downloadDir ++ "/" ++ filename
  let attempt : Except String Unit :=
    if o.ok = false ∨ o.hasBody = false then
      Except.error ("response status was " ++ toString o.status)
    else
      match o.streamError with
      | some e => Except.error e
      | none => Except.ok ()
  match attempt with
  | Except.ok _ =>
    { dest := dest, logged := none,
      result := Except.ok { id := addonId, downloadedFiles := [filename] } }
  | Except.error e =>
    { dest := dest,
      logged := some ("Download of signed xpi failed: Error: " ++ e ++ "."),
      result := Except.error ("Downloading " ++ filename ++ " failed") }

/-! ## Client construction and `signAddon`'s configuration (lines 82-104,
409-416)

Optional constructor parameters are `Option Nat` (`none` models a JS
`undefined` argument, on which the default parameter value kicks in). -/

/-- The timing-related optional constructor parameters of `Client`. -/
structure ClientConstructorParams where
  validationCheckInterval : Option Nat := none
  validationCheckTimeout : Option Nat := none
  approvalCheckInterval : Option Nat := none
  approvalCheckTimeout : Option Nat := none

/-- The timing configuration a constructed `Client` ends up with. -/
structure Client where
  validationCheckInterval : Nat
  validationCheckTimeout : Nat
  approvalCheckInterval : Nat
  approvalCheckTimeout : Nat
deriving DecidableEq

/-- The `Client` constructor's handling of its timing parameters, with the
source's default values. -/
def clientOfParams (p : ClientConstructorParams) : Client :=
  { validationCheckInterval := p.validationCheckInterval.getD 1000
    validationCheckTimeout := p.validationCheckTimeout.getD 300000
    approvalCheckInterval := p.approvalCheckInterval.getD 1000
    approvalCheckTimeout := p.approvalCheckTimeout.getD 900000 }

/-- The constructor arguments `signAddon` passes to `SubmitClient`: both
timeouts are set to the single `timeout` parameter; neither interval is
passed. -/
def signAddonClientParams (timeout : Nat) : ClientConstructorParams :=
  { validationCheckInterval := none
    validationCheckTimeout := some timeout
    approvalCheckInterval := none
    approvalCheckTimeout := some timeout }

/-- The client `signAddon` constructs for a defined `timeout`. -/
def signAddonClient (timeout : Nat) : Client :=
  clientOfParams (signAddonClientParams timeout)

/-! ## Theorems -/

/-- Claim C1 (code_bug evidence).  On the failing input — a first poll whose
HTTP request is still in flight (2 ms) when the abort timer fires at 1 ms,
with the predicate returning null — `waitRetry` rejects with the timeout
error containing the context string at time 1, but the completing in-flight
poll reschedules and a second HTTP poll request is issued at time 3, after
the rejection.  This contradicts the specified invariant that no further HTTP
poll is ever issued after the outcome fires. -/
theorem waitRetry_timeout_inflight_repoll :
    waitRetryRun [⟨2, TickRes.isNull⟩, ⟨0, TickRes.isNull⟩] 1 1 "Validation"
      = ⟨[0, 3], some (Settle.timeoutRej "Validation: timeout.", 1), some 1⟩ := rfl

/-- Helper: the nested conditionals of `fetchJson` collapse to a single
failure condition. -/
theorem fetchJson_eq (url method : String) (body : Option String)
    (r : FetchResponse) (errorMsg : String) :
    fetchJson url method body r errorMsg =
      if r.status < 200 ∨ r.status ≥ 500 ∨ r.ok = false then
        Except.error (errorMsg ++ ": " ++ statusTextOrCode r ++ ".")
      else Except.ok r.body := by
  unfold fetchJson
  by_cases h1 : r.status < 200 ∨ r.status ≥ 500
  · rw [if_pos h1, if_pos (by tauto)]
  · rw [if_neg h1]
    by_cases h2 : r.ok = false
    · rw [if_pos h2, if_pos (by tauto)]
    · rw [if_neg h2, if_neg (by tauto)]

/-- Claim C2.  For every URL, method, body and error context, `fetchJson`
raises exactly when the status is below 200, at least 500, or in [200,500)
with the response not ok; the raised message is the context followed by the
status text (falling back to the numeric status code when the status text is
empty); otherwise it returns the parsed JSON body. -/
theorem fetchJson_spec (url method : String) (body : Option String)
    (r : FetchResponse) (errorMsg : String) :
    ((∃ m, fetchJson url method body r errorMsg = Except.error m) ↔
      (r.status < 200 ∨ 500 ≤ r.status ∨
        (200 ≤ r.status ∧ r.status < 500 ∧ r.ok = false))) ∧
    (∀ m, fetchJson url method body r errorMsg = Except.error m →
      m = errorMsg ++ ": " ++
        (if r.statusText = "" then toString r.status else r.statusText) ++ ".") ∧
    (200 ≤ r.status → r.status < 500 → r.ok = true →
      fetchJson url method body r errorMsg = Except.ok r.body) := by
  rw [fetchJson_eq]
  by_cases hc : r.status < 200 ∨ r.status ≥ 500 ∨ r.ok = false
  · rw [if_pos hc]
    refine ⟨⟨fun _ => ?_, fun _ => ⟨_, rfl⟩⟩, fun m hm => ?_, fun hs1 hs2 hok => ?_⟩
    · rcases hc with h | h | h
      · exact Or.inl h
      · exact Or.inr (Or.inl h)
      · by_cases hs : r.status < 200
        · exact Or.inl hs
        · by_cases hs2 : 500 ≤ r.status
          · exact Or.inr (Or.inl hs2)
          · exact Or.inr (Or.inr ⟨by omega, by omega, h⟩)
    · injection hm with h
      rw [← h]
      rfl
    · exfalso
      rcases hc with h | h | h
      · omega
      · omega
      · rw [hok] at h
        cases h
  · rw [if_neg hc]
    push_neg at hc
    refine ⟨⟨?_, fun h => ?_⟩, fun m hm => Except.noConfusion hm, fun _ _ _ => rfl⟩
    · rintro ⟨m, hm⟩
      exact Except.noConfusion hm
    · exfalso
      rcases h with h | h | h
      · omega
      · omega
      · exact hc.2.2 h.2.2

/-- Claim C2 witness: a 201 response with `ok` set parses successfully. -/
theorem fetchJson_spec_witness :
    fetchJson "https://amo/api/v5/addons/addon/" "POST" none
        ⟨201, "Created", true, JsonVal.obj []⟩ "Bad Request"
      = Except.ok (JsonVal.obj []) :=
  (fetchJson_spec "https://amo/api/v5/addons/addon/" "POST" none
    ⟨201, "Created", true, JsonVal.obj []⟩ "Bad Request").2.2
    (by decide) (by decide) rfl

/-- Claim C10.  `signAddon` assigns its single `timeout` parameter to both
the validation poll timeout and the approval poll timeout of the client it
constructs; the two poll intervals are not passed and keep their 1000 ms
default; a client constructed without explicit timeouts keeps the distinct
defaults of 300000 ms (validation) and 900000 ms (approval). -/
theorem signAddon_timeout_config (timeout : Nat) :
    (signAddonClient timeout).validationCheckTimeout = timeout ∧
    (signAddonClient timeout).approvalCheckTimeout = timeout ∧
    (signAddonClient timeout).validationCheckInterval = 1000 ∧
    (signAddonClient timeout).approvalCheckInterval = 1000 ∧
    (clientOfParams {}).validationCheckTimeout = 300000 ∧
    (clientOfParams {}).approvalCheckTimeout = 900000 ∧
    (clientOfParams {}).validationCheckInterval = 1000 ∧
    (clientOfParams {}).approvalCheckInterval = 1000 :=
  ⟨rfl, rfl, rfl, rfl, rfl, rfl, rfl, rfl⟩

/-- Helper: the poll schedule has one entry per tick. -/
theorem pollScheduleFrom_length (ci : Nat) :
    ∀ (l : List Tick) (t : Nat), (pollScheduleFrom ci l t).length = l.length := by
  intro l
  induction l with
  | nil => intro t; rfl
  | cons a as ih => intro t; simp [pollScheduleFrom, ih]

/-- Helper: the poll schedule of a nonempty tick list starts at its start
time. -/
theorem pollScheduleFrom_head (ci : Nat) :
    ∀ (l : List Tick) (t : Nat), l ≠ [] →
      (pollScheduleFrom ci l t).head? = some t := by
  intro l t h
  cases l with
  | nil => exact absurd rfl h
  | cons a as => rfl

/-- Helper: every scheduled poll time for `ns ++ [tk]` is at most the start
time plus the budget of the leading null polls. -/
theorem pollScheduleFrom_append_le (ci : Nat) (tk : Tick) :
    ∀ (ns : List Tick) (t0 x : Nat),
      x ∈ pollScheduleFrom ci (ns ++ [tk]) t0 → x ≤ t0 + pollBudget ci ns := by
  intro ns
  induction ns with
  | nil =>
    intro t0 x hx
    simp [pollScheduleFrom] at hx
    simp [pollBudget, hx]
  | cons a as ih =>
    intro t0 x hx
    simp only [List.cons_append, pollScheduleFrom, List.mem_cons] at hx
    rcases hx with h | h
    · simp [pollBudget, h]
    · have := ih (t0 + a.dur + ci) x h
      simp [pollBudget]
      omega

/-- Helper: a run of polls whose predicate keeps returning null, followed by
one terminal poll, all completing strictly before the abort deadline `A`:
polls are issued on schedule, the run settles when the terminal poll's
response arrives, and the abort timer never fires. -/
theorem waitRetryLoop_nulls (ci A : Nat) (ctx : String) (tk : Tick)
    (hres : tk.res ≠ TickRes.isNull) :
    ∀ (ns : List Tick) (t0 : Nat),
      (∀ x ∈ ns, x.res = TickRes.isNull) →
      t0 + pollBudget ci ns + tk.dur < A →
      waitRetryLoop ci A ctx (ns ++ [tk]) t0 true none none =
        ⟨pollScheduleFrom ci (ns ++ [tk]) t0,
          terminalSettle tk.res (t0 + pollBudget ci ns + tk.dur), none⟩ := by
  intro ns
  induction ns with
  | nil =>
    intro t0 _ hA
    simp only [pollBudget, Nat.add_zero] at hA ⊢
    simp only [List.nil_append, waitRetryLoop]
    rw [if_neg (by simp; omega)]
    cases h : tk.res with
    | isNull => exact absurd h hres
    | success v => simp [pollScheduleFrom, terminalSettle, Option.orElse]
    | err e => simp [pollScheduleFrom, terminalSettle, Option.orElse]
  | cons hd tl ih =>
    intro t0 hnull hA
    have hhd : hd.res = TickRes.isNull := hnull hd (by simp)
    have hbudget : pollBudget ci (hd :: tl) = hd.dur + ci + pollBudget ci tl := rfl
    rw [hbudget] at hA
    simp only [List.cons_append, waitRetryLoop]
    rw [hhd]
    rw [if_neg (by simp; omega)]
    rw [if_neg (by simp; omega)]
    have ih' := ih (t0 + hd.dur + ci)
      (fun x hx => hnull x (List.mem_cons_of_mem _ hx)) (by omega)
    simp only [List.append_eq]
    rw [ih']
    have harith : t0 + hd.dur + ci + pollBudget ci tl + tk.dur
        = t0 + pollBudget ci (hd :: tl) + tk.dur := by
      rw [hbudget]
      omega
    rw [harith]
    simp [pollScheduleFrom]

/-- Claim C6.  For a run whose predicate returns null for `ns` polls and then
a non-null value, all completing before the abort deadline: the first GET is
issued immediately at time 0 with no initial delay; every later poll is
issued exactly `checkInterval` after the previous null result; the run
resolves with the first non-null value at the moment that response arrives;
the abort timer never fires; and no poll is issued after resolution (every
poll time is at most the resolution time). -/
theorem waitRetry_resolves_first_success (ns : List Tick) (d : Nat)
    (v ctx : String) (ci A : Nat)
    (hnull : ∀ x ∈ ns, x.res = TickRes.isNull)
    (hA : pollBudget ci ns + d < A) :
    (waitRetryRun (ns ++ [⟨d, TickRes.success v⟩]) ci A ctx).pollTimes
        = pollScheduleFrom ci (ns ++ [⟨d, TickRes.success v⟩]) 0 ∧
    (waitRetryRun (ns ++ [⟨d, TickRes.success v⟩]) ci A ctx).pollTimes.head?
        = some 0 ∧
    (waitRetryRun (ns ++ [⟨d, TickRes.success v⟩]) ci A ctx).outcome
        = some (Settle.resolved v, pollBudget ci ns + d) ∧
    (waitRetryRun (ns ++ [⟨d, TickRes.success v⟩]) ci A ctx).abortFired = none ∧
    (∀ t ∈ (waitRetryRun (ns ++ [⟨d, TickRes.success v⟩]) ci A ctx).pollTimes,
        t ≤ pollBudget ci ns + d) := by
  have key := waitRetryLoop_nulls ci A ctx ⟨d, TickRes.success v⟩
    (fun h => TickRes.noConfusion h) ns 0 hnull
    (show 0 + pollBudget ci ns + d < A by omega)
  unfold waitRetryRun
  rw [key]
  refine ⟨rfl, ?_, ?_, rfl, ?_⟩
  · exact pollScheduleFrom_head ci _ 0 (by simp)
  · simp [terminalSettle]
  · intro t ht
    have := pollScheduleFrom_append_le ci ⟨d, TickRes.success v⟩ ns 0 t ht
    omega

/-- Claim C6 witness: one null poll (2 ms in flight), then a poll whose
response arrives 3 ms after it is issued at 3 ms, with a 100 ms abort
interval and a 1 ms check interval: the run resolves with the first non-null
value at 6 ms, after polls at 0 ms and 3 ms. -/
theorem waitRetry_resolves_first_success_witness :
    (waitRetryRun [⟨2, TickRes.isNull⟩, ⟨3, TickRes.success "u1"⟩]
        1 100 "Validation").outcome
      = some (Settle.resolved "u1", 6) ∧
    (waitRetryRun [⟨2, TickRes.isNull⟩, ⟨3, TickRes.success "u1"⟩]
        1 100 "Validation").pollTimes = [0, 3] :=
  ⟨(waitRetry_resolves_first_success [⟨2, TickRes.isNull⟩] 3 "u1" "Validation"
      1 100 (by decide) (by decide)).2.2.1,
    (waitRetry_resolves_first_success [⟨2, TickRes.isNull⟩] 3 "u1" "Validation"
      1 100 (by decide) (by decide)).1⟩

/-- Claim C7.  If the predicate (or the HTTP layer) throws on a polling tick
before the abort deadline, the run rejects with that error at the moment the
tick's response arrives — strictly before the abort deadline, without
consuming the remaining timeout budget; the abort timer is cancelled and
never fires; and the erroring tick is never retried (the run issues exactly
the `ns` null polls plus the one erroring poll). -/
theorem waitRetry_error_rejects_immediately (ns : List Tick) (d : Nat)
    (e ctx : String) (ci A : Nat)
    (hnull : ∀ x ∈ ns, x.res = TickRes.isNull)
    (hA : pollBudget ci ns + d < A) :
    (waitRetryRun (ns ++ [⟨d, TickRes.err e⟩]) ci A ctx).outcome
        = some (Settle.errRej e, pollBudget ci ns + d) ∧
    pollBudget ci ns + d < A ∧
    (waitRetryRun (ns ++ [⟨d, TickRes.err e⟩]) ci A ctx).abortFired = none ∧
    (waitRetryRun (ns ++ [⟨d, TickRes.err e⟩]) ci A ctx).pollTimes.length
        = ns.length + 1 := by
  have key := waitRetryLoop_nulls ci A ctx ⟨d, TickRes.err e⟩
    (fun h => TickRes.noConfusion h) ns 0 hnull
    (show 0 + pollBudget ci ns + d < A by omega)
  unfold waitRetryRun
  rw [key]
  refine ⟨?_, hA, rfl, ?_⟩
  · simp [terminalSettle]
  · rw [pollScheduleFrom_length]
    simp

/-- Claim C7 witness: one null poll, then a poll whose predicate throws at
3 ms: the run rejects with that error at 3 ms, well before the 500 ms abort
deadline, with the abort timer cancelled and exactly two polls issued. -/
theorem waitRetry_error_rejects_immediately_witness :
    (waitRetryRun [⟨1, TickRes.isNull⟩, ⟨1, TickRes.err "Validation failed"⟩]
        1 500 "Validation").outcome
      = some (Settle.errRej "Validation failed", 3) ∧
    (waitRetryRun [⟨1, TickRes.isNull⟩, ⟨1, TickRes.err "Validation failed"⟩]
        1 500 "Validation").abortFired = none :=
  ⟨(waitRetry_error_rejects_immediately [⟨1, TickRes.isNull⟩] 1
      "Validation failed" "Validation" 1 500 (by decide) (by decide)).1,
    (waitRetry_error_rejects_immediately [⟨1, TickRes.isNull⟩] 1
      "Validation failed" "Validation" 1 500 (by decide) (by decide)).2.2.1⟩

/-- Claim C5.  The validation polling predicate returns null whenever the
response's `processed` field is falsy; returns the response's `uuid` field
whenever `processed` and `valid` are truthy; throws an error whose message
embeds the response's `url` field whenever `processed` is truthy and `valid`
is falsy; and throws in no other case (it errors exactly when processed and
not valid). -/
theorem validationSuccessFunc_spec (d : JsonVal) :
    (truthyOpt (d.get "processed") = false →
      validationSuccessFunc d = Except.ok none) ∧
    (truthyOpt (d.get "processed") = true → truthyOpt (d.get "valid") = true →
      validationSuccessFunc d = Except.ok (d.get "uuid")) ∧
    (truthyOpt (d.get "processed") = true → truthyOpt (d.get "valid") = false →
      validationSuccessFunc d =
        Except.error
          ("Validation failed, open the following URL for more information: "
            ++ jsStringOpt (d.get "url"))) ∧
    ((∃ m, validationSuccessFunc d = Except.error m) ↔
      (truthyOpt (d.get "processed") = true ∧
        truthyOpt (d.get "valid") = false)) := by
  unfold validationSuccessFunc
  by_cases hp : truthyOpt (d.get "processed") = false
  · rw [if_pos hp]
    refine ⟨fun _ => rfl, ?_, ?_, ?_⟩
    · intro h
      rw [h] at hp
      cases hp
    · intro h
      rw [h] at hp
      cases hp
    · constructor
      · rintro ⟨m, hm⟩
        exact Except.noConfusion hm
      · rintro ⟨h, _⟩
        rw [h] at hp
        cases hp
  · rw [if_neg hp]
    have hp' : truthyOpt (d.get "processed") = true := by
      cases h : truthyOpt (d.get "processed")
      · exact absurd h hp
      · rfl
    by_cases hv : truthyOpt (d.get "valid") = true
    · rw [if_pos hv]
      refine ⟨fun h => ?_, fun _ _ => rfl, fun _ h => ?_, ?_⟩
      · rw [h] at hp'
        cases hp'
      · rw [h] at hv
        cases hv
      · constructor
        · rintro ⟨m, hm⟩
          exact Except.noConfusion hm
        · rintro ⟨_, h⟩
          rw [h] at hv
          cases hv
    · rw [if_neg hv]
      have hv' : truthyOpt (d.get "valid") = false := by
        cases h : truthyOpt (d.get "valid")
        · rfl
        · exact absurd h hv
      refine ⟨fun h => ?_, fun _ h => ?_, fun _ _ => rfl, ?_⟩
      · rw [h] at hp'
        cases hp'
      · rw [h] at hv'
        cases hv'
      · exact ⟨fun _ => ⟨hp', hv'⟩, fun _ => ⟨_, rfl⟩⟩

/-- Claim C5 witness: a processed, valid response yields its uuid; the
theorem's second case applied at a concrete response. -/
theorem validationSuccessFunc_spec_witness :
    validationSuccessFunc
        (JsonVal.obj [("processed", JsonVal.bool true),
                      ("valid", JsonVal.bool true),
                      ("uuid", JsonVal.str "abc-123")])
      = Except.ok (some (JsonVal.str "abc-123")) :=
  (validationSuccessFunc_spec
    (JsonVal.obj [("processed", JsonVal.bool true),
                  ("valid", JsonVal.bool true),
                  ("uuid", JsonVal.str "abc-123")])).2.1 rfl rfl

/-- Claim C3.  With no supplied record id the workflow takes the create
path: after upload and validation it POSTs the merged metadata to the
`addon/` collection, reads the record id from the response's `guid` field
and the version id from the response field `current_version` exactly when
the channel is `"listed"` (and `latest_unlisted_version` for any other
channel), and persists the generated record id to the caller-specified file
strictly before the approval poll step. -/
theorem postNewAddon_create_path
    (xpiPath channel savedIdPath uploadUuid approvedFileUrl : String)
    (metaDataJson createResp vo : JsonVal)
    (hvo : createResp.get (versionObjectKey channel) = some vo)
    (hnn : vo ≠ JsonVal.null) :
    (postNewAddon xpiPath channel savedIdPath metaDataJson uploadUuid
        createResp approvedFileUrl
      = some [Step.uploadSubmit xpiPath channel,
              Step.postJson "addon/" (mergedSubmitBody uploadUuid metaDataJson),
              Step.saveId savedIdPath (createResp.get "guid"),
              Step.approvalPoll (createResp.get "guid") (vo.get "id"),
              Step.download approvedFileUrl (createResp.get "guid")]) ∧
    (channel = "listed" → versionObjectKey channel = "current_version") ∧
    (channel ≠ "listed" → versionObjectKey channel = "latest_unlisted_version") := by
  refine ⟨?_, fun h => by simp [versionObjectKey, h],
    fun h => by simp [versionObjectKey, h]⟩
  unfold postNewAddon
  rw [hvo]
  cases vo with
  | null => exact absurd rfl hnn
  | bool b => rfl
  | num n => rfl
  | str s => rfl
  | arr xs => rfl
  | obj fs => rfl

/-- Claim C3 witness: the create path on the listed channel with a concrete
create response, showing the id saved before the approval poll and the
version id taken from `current_version`. -/
theorem postNewAddon_create_path_witness :
    postNewAddon "ext.xpi" "listed" ".web-extension-id" (JsonVal.obj []) "u1"
        (JsonVal.obj [("guid", JsonVal.str "gid@addon"),
          ("current_version", JsonVal.obj [("id", JsonVal.num 42)])])
        "https://amo/dl/signed.xpi"
      = some [Step.uploadSubmit "ext.xpi" "listed",
              Step.postJson "addon/" (mergedSubmitBody "u1" (JsonVal.obj [])),
              Step.saveId ".web-extension-id" (some (JsonVal.str "gid@addon")),
              Step.approvalPoll (some (JsonVal.str "gid@addon"))
                (some (JsonVal.num 42)),
              Step.download "https://amo/dl/signed.xpi"
                (some (JsonVal.str "gid@addon"))] :=
  (postNewAddon_create_path "ext.xpi" "listed" ".web-extension-id" "u1"
    "https://amo/dl/signed.xpi" (JsonVal.obj [])
    (JsonVal.obj [("guid", JsonVal.str "gid@addon"),
      ("current_version", JsonVal.obj [("id", JsonVal.num 42)])])
    (JsonVal.obj [("id", JsonVal.num 42)]) rfl
    (fun h => JsonVal.noConfusion h)).1

/-- Claim C4.  With a supplied record id the workflow takes the update path:
after upload and validation it PUTs the merged metadata to the existing
record's URL, then separately GETs the record's version listing filtered to
include unlisted versions, and uses the `id` of the first entry of the
returned `results` array as the version id for the approval poll. -/
theorem putVersion_update_path
    (xpiPath channel addonId uploadUuid approvedFileUrl : String)
    (metaDataJson versionsResp first : JsonVal) (rest : List JsonVal)
    (hres : versionsResp.get "results" = some (JsonVal.arr (first :: rest)))
    (hnn : first ≠ JsonVal.null) :
    putVersion xpiPath channel addonId metaDataJson uploadUuid versionsResp
        approvedFileUrl
      = some [Step.uploadSubmit xpiPath channel,
              Step.putJson ("addon/" ++ addonId ++ "/")
                (mergedSubmitBody uploadUuid metaDataJson),
              Step.getJson ("addon/" ++ addonId ++ "/versions/?filter=all_with_unlisted"),
              Step.approvalPoll (some (JsonVal.str addonId)) (first.get "id"),
              Step.download approvedFileUrl (some (JsonVal.str addonId))] := by
  unfold putVersion
  rw [hres]
  cases first with
  | null => exact absurd rfl hnn
  | bool b => rfl
  | num n => rfl
  | str s => rfl
  | arr xs => rfl
  | obj fs => rfl

/-- Claim C4 witness: the update path on a concrete version listing, taking
the id of the first results entry. -/
theorem putVersion_update_path_witness :
    putVersion "ext.xpi" "unlisted" "gid@addon" (JsonVal.obj []) "u1"
        (JsonVal.obj [("results",
          JsonVal.arr [JsonVal.obj [("id", JsonVal.num 7)],
            JsonVal.obj [("id", JsonVal.num 3)]])])
        "https://amo/dl/signed.xpi"
      = some [Step.uploadSubmit "ext.xpi" "unlisted",
              Step.putJson "addon/gid@addon/" (mergedSubmitBody "u1" (JsonVal.obj [])),
              Step.getJson "addon/gid@addon/versions/?filter=all_with_unlisted",
              Step.approvalPoll (some (JsonVal.str "gid@addon"))
                (some (JsonVal.num 7)),
              Step.download "https://amo/dl/signed.xpi"
                (some (JsonVal.str "gid@addon"))] :=
  putVersion_update_path "ext.xpi" "unlisted" "gid@addon" "u1"
    "https://amo/dl/signed.xpi" (JsonVal.obj [])
    (JsonVal.obj [("results",
      JsonVal.arr [JsonVal.obj [("id", JsonVal.num 7)],
        JsonVal.obj [("id", JsonVal.num 3)]])])
    (JsonVal.obj [("id", JsonVal.num 7)]) [JsonVal.obj [("id", JsonVal.num 3)]]
    rfl (fun h => JsonVal.noConfusion h)

/-- Helper: after assigning key `k`, looking `k` up finds the new value. -/
theorem objSet_find_self (fs : List (String × JsonVal)) (k : String) (v : JsonVal) :
    (objSet fs k v).find? (fun p => p.1 == k) = some (k, v) := by
  unfold objSet
  by_cases h : fs.any (fun p => p.1 == k)
  · rw [if_pos h]
    induction fs with
    | nil => simp at h
    | cons a as ih =>
      by_cases ha : a.1 == k
      · simp [List.find?, ha]
      · have h' : as.any (fun p => p.1 == k) := by
          simpa [List.any_cons, ha] using h
        simp only [List.map_cons, List.find?, ha, if_neg]
        simpa [ha] using ih h'
  · rw [if_neg h]
    have hnone : fs.find? (fun p => p.1 == k) = none := by
      rw [List.find?_eq_none]
      intro p hp
      intro hpk
      exact h (List.any_of_mem hp hpk)
    rw [List.find?_append, hnone]
    simp [List.find?]

/-- Helper: replacing the values stored at key `k'` leaves a lookup of a
different key `k` unchanged. -/
theorem find?_map_keyswap (k' k : String) (v : JsonVal) (hne : k' ≠ k) :
    ∀ (fs : List (String × JsonVal)),
      (fs.map (fun p => if p.1 == k' then (k', v) else p)).find?
          (fun p => p.1 == k)
        = fs.find? (fun p => p.1 == k) := by
  intro fs
  induction fs with
  | nil => rfl
  | cons a as ih =>
    simp only [List.map_cons]
    by_cases ha : (a.1 == k') = true
    · rw [if_pos ha]
      have h1 : a.1 = k' := by simpa using ha
      have hak : ¬ ((fun p => p.1 == k) a) = true := by
        simp only [h1]
        simpa using hne
      rw [@List.find?_cons_of_neg _ (fun p => p.1 == k) (k', v) _
          (by simpa using hne),
        @List.find?_cons_of_neg _ (fun p => p.1 == k) a _ hak]
      exact ih
    · rw [if_neg ha]
      by_cases hak : ((fun p => p.1 == k) a) = true
      · rw [@List.find?_cons_of_pos _ (fun p => p.1 == k) a _ hak,
          @List.find?_cons_of_pos _ (fun p => p.1 == k) a _ hak]
      · rw [@List.find?_cons_of_neg _ (fun p => p.1 == k) a _ hak,
          @List.find?_cons_of_neg _ (fun p => p.1 == k) a _ hak]
        exact ih

/-- Helper: assigning a different key does not change what looking up `k`
finds. -/
theorem objSet_find_ne (fs : List (String × JsonVal)) (k' k : String)
    (v : JsonVal) (hne : k' ≠ k) :
    (objSet fs k' v).find? (fun p => p.1 == k)
      = fs.find? (fun p => p.1 == k) := by
  unfold objSet
  by_cases h : fs.any (fun p => p.1 == k')
  · rw [if_pos h]
    exact find?_map_keyswap k' k v hne fs
  · rw [if_neg h, List.find?_append]
    cases hfs : fs.find? (fun p => p.1 == k)
    · have hkk : (k' == k) = false := by simpa using hne
      simp [List.find?, hkk]
    · rfl

/-- Helper: spreading fields none of which use key `k` preserves what a
lookup of `k` finds. -/
theorem objSpread_find_preserved (k : String) (q : String × JsonVal) :
    ∀ (src dst : List (String × JsonVal)),
      (∀ p ∈ src, p.1 ≠ k) →
      dst.find? (fun p => p.1 == k) = some q →
      (objSpread dst src).find? (fun p => p.1 == k) = some q := by
  intro src
  induction src with
  | nil =>
    intro dst _ hdst
    exact hdst
  | cons a as ih =>
    intro dst hsrc hdst
    have ha : a.1 ≠ k := hsrc a (by simp)
    exact ih (objSet dst a.1 a.2)
      (fun p hp => hsrc p (List.mem_cons_of_mem _ hp))
      (by rw [objSet_find_ne dst a.1 k a.2 ha]; exact hdst)

/-- Claim C8 counterexample.  With metadata whose own `version` object
already carries an `upload` key, the body built by the submit calls keeps
the caller's value — the inner spread `{ upload: uuid, ...metaDataJson.version }`
lets the metadata override the validated upload uuid, so the sent
`version.upload` does NOT equal the uuid returned by validation. -/
theorem mergedSubmitBody_upload_override_counterexample :
    ((mergedSubmitBody "u1"
        (JsonVal.obj [("version",
          JsonVal.obj [("upload", JsonVal.str "prior")])])).get "version").bind
        (fun v => v.get "upload")
      = some (JsonVal.str "prior") ∧
    ¬ ((mergedSubmitBody "u1"
        (JsonVal.obj [("version",
          JsonVal.obj [("upload", JsonVal.str "prior")])])).get "version").bind
        (fun v => v.get "upload")
      = some (JsonVal.str "u1") := by
  refine ⟨rfl, ?_⟩
  intro hcontra
  injection hcontra with h1
  injection h1 with h2
  exact absurd h2 (by decide)

/-- Claim C8 (amended).  The JSON body sent by both the create and the
update submission is the metadata merged with
`{version: {upload: uuid, ...metadata.version}}`; the sent `version.upload`
equals the uuid returned by validation for every metadata object whose own
`version` field (when it is an object) does not itself carry an `upload`
key — a caller-supplied `version.upload` overrides the uuid. -/
theorem mergedSubmitBody_upload_amended (uuid : String) (metaDataJson : JsonVal)
    (h : (objFields ((metaDataJson.get "version").getD JsonVal.null)).all
        (fun p => !(p.1 == "upload")) = true) :
    ((mergedSubmitBody uuid metaDataJson).get "version").bind
        (fun v => v.get "upload") = some (JsonVal.str uuid) := by
  have hsrc : ∀ p ∈ objFields ((metaDataJson.get "version").getD JsonVal.null),
      p.1 ≠ "upload" := by
    intro p hp
    have := List.all_eq_true.mp h p hp
    simpa using this
  simp only [mergedSubmitBody]
  generalize hgen :
    objFields ((metaDataJson.get "version").getD JsonVal.null) = vf at hsrc ⊢
  simp only [JsonVal.get]
  rw [objSet_find_self]
  simp only [Option.map_some', Option.some_bind, JsonVal.get]
  rw [objSpread_find_preserved "upload" ("upload", JsonVal.str uuid) vf
    [("upload", JsonVal.str uuid)] hsrc rfl]
  rfl

/-- Claim C8 witness: metadata with a `version` object that has no `upload`
key (a license field only) gets the validated uuid as `version.upload`. -/
theorem mergedSubmitBody_upload_amended_witness :
    ((mergedSubmitBody "u1"
        (JsonVal.obj [("name", JsonVal.str "my extension"),
          ("version", JsonVal.obj [("license", JsonVal.str "MIT")])])).get
        "version").bind (fun v => v.get "upload")
      = some (JsonVal.str "u1") :=
  mergedSubmitBody_upload_amended "u1"
    (JsonVal.obj [("name", JsonVal.str "my extension"),
      ("version", JsonVal.obj [("license", JsonVal.str "MIT")])]) rfl

/-- Claim C9.  `downloadSignedFile` always writes to
`{downloadDir}/{filename}` with the filename taken as the last path segment
of the signed URL; on success it returns
`{id: recordId, downloadedFiles: [filename]}` and logs nothing; when the
response is not ok, has no body, or streaming fails, the surfaced error is
exactly `Downloading {filename} failed` while something is logged; and a
streaming failure is logged in full. -/
theorem downloadSignedFile_spec (downloadDir pathname addonId : String)
    (o : DownloadOutcome) :
    (downloadSignedFile downloadDir pathname addonId o).dest
        = downloadDir ++ "/" ++ lastUrlSegment pathname ∧
    (o.ok = true → o.hasBody = true → o.streamError = none →
      (downloadSignedFile downloadDir pathname addonId o).result
          = Except.ok ⟨addonId, [lastUrlSegment pathname]⟩ ∧
      (downloadSignedFile downloadDir pathname addonId o).logged = none) ∧
    ((o.ok = false ∨ o.hasBody = false ∨ o.streamError ≠ none) →
      (downloadSignedFile downloadDir pathname addonId o).result
          = Except.error ("Downloading " ++ lastUrlSegment pathname ++ " failed") ∧
      ∃ m, (downloadSignedFile downloadDir pathname addonId o).logged = some m) ∧
    (∀ e, o.ok = true → o.hasBody = true → o.streamError = some e →
      (downloadSignedFile downloadDir pathname addonId o).logged
          = some ("Download of signed xpi failed: Error: " ++ e ++ ".")) := by
  obtain ⟨ok, hb, st, se⟩ := o
  cases ok <;> cases hb <;> cases se <;>
    simp [downloadSignedFile]

/-- Claim C9 witness: downloading `.../signed.xpi` into `/tmp/dl` succeeds
and returns the record id with the single downloaded filename, while a
mid-stream failure on the same URL surfaces only the generic message. -/
theorem downloadSignedFile_spec_witness :
    (downloadSignedFile "/tmp/dl" "/files/123/signed.xpi" "gid@addon"
        ⟨true, true, 200, none⟩).result
      = Except.ok ⟨"gid@addon", ["signed.xpi"]⟩ ∧
    (downloadSignedFile "/tmp/dl" "/files/123/signed.xpi" "gid@addon"
        ⟨true, true, 200, some "EPIPE"⟩).result
      = Except.error "Downloading signed.xpi failed" :=
  ⟨((downloadSignedFile_spec "/tmp/dl" "/files/123/signed.xpi" "gid@addon"
      ⟨true, true, 200, none⟩).2.1 rfl rfl rfl).1,
    ((downloadSignedFile_spec "/tmp/dl" "/files/123/signed.xpi" "gid@addon"
      ⟨true, true, 200, some "EPIPE"⟩).2.2.1
      (Or.inr (Or.inr (fun hc => Option.noConfusion hc)))).1⟩
